import Mathlib

/-!
Verification of the Website-Data-Pipeline repository.

This file shallowly embeds the pure logic of the four pipeline stages
(`crawler.py`, `extractor.py`, `transformer.py`, `aggregator.py`) as Lean
definitions and proves properties about them.  Python strings are modelled
as Lean `String` (operated on through `List Char`), Python dicts as
insertion-ordered association lists, HTML documents as a node tree, and the
network as an explicit oracle passed to the crawler.  File I/O and logging
are not modelled: saving a file is represented by the path it would produce,
and log lines have no observable effect on the data flow.
-/

namespace Pipeline

/-! ## Python string primitives -/

/-- The whitespace characters stripped by Python `str.strip()` and matched by
the regex class `\s` on ASCII input: space, tab, newline, carriage return,
vertical tab and form feed. -/
def pyIsSpace (c : Char) : Bool :=
  c == ' ' || c == '\t' || c == '\n' || c == '\r' || c == '\x0b' || c == '\x0c'

/-- Python `str.strip()` on a character list: drop leading and trailing
whitespace. -/
def pyStripList (l : List Char) : List Char :=
  ((l.dropWhile pyIsSpace).reverse.dropWhile pyIsSpace).reverse

/-- Python `str.strip()`. -/
def pyStrip (s : String) : String :=
  (pyStripList s.toList).asString

/-- Python `str.lower()` (ASCII case folding, which covers the repository's
inputs). -/
def pyLower (s : String) : String :=
  (s.toList.map Char.toLower).asString

/-- Python `needle in haystack` on strings: substring containment. -/
def pyInStr (needle haystack : String) : Bool :=
  haystack.toList.tails.any (fun t => needle.toList.isPrefixOf t)

/-- Python `str.startswith`. -/
def pyStartsWith (s pre : String) : Bool :=
  pre.toList.isPrefixOf s.toList

/-- Python `str.endswith`. -/
def pyEndsWith (s suf : String) : Bool :=
  suf.toList.isSuffixOf s.toList

/-! ## extractor.py: text cleanup -/

/-- Drop trailing characters satisfying `p` (the tail half of `strip()`). -/
def dropTrailing (p : Char → Bool) (l : List Char) : List Char :=
  (l.reverse.dropWhile p).reverse

/-- The characters matched by the regex class `[\r\n\t]` in extractor.py
`clean_text`. -/
def isCRT (c : Char) : Bool := c == '\r' || c == '\n' || c == '\t'

/-- A single space character (the regex class of `' {2,}'`). -/
def isSp (c : Char) : Bool := c == ' '

/-- One substitution pass `re.sub(cls+, rep, text)`: every maximal run of
characters of the class is replaced by the single character `rep`.  This also
models `re.sub(r' {2,}', ' ', text)`: replacing only runs of length ≥ 2
produces the same string as collapsing every run, because a singleton space
run collapses to itself. -/
def collapseRuns (p : Char → Bool) (rep : Char) : List Char → List Char
  | [] => []
  | c :: cs =>
      if p c then rep :: collapseRuns p rep (cs.dropWhile p)
      else c :: collapseRuns p rep cs
termination_by l => l.length
decreasing_by
  · simpa [Nat.lt_succ_iff] using (List.dropWhile_sublist p).length_le
  · simp

/-- extractor.py `clean_text` on a character list: strip, collapse whitespace
runs (`\s+`), collapse `[\r\n\t]+` runs, collapse space runs, strip again.
The guard `if not text: return ""` is subsumed (the empty list maps to
itself). -/
def cleanList (l : List Char) : List Char :=
  pyStripList
    (collapseRuns isSp ' '
      (collapseRuns isCRT ' '
        (collapseRuns pyIsSpace ' ' (pyStripList l))))

/-- extractor.py `clean_text`. -/
def clean_text (s : String) : String :=
  (cleanList s.toList).asString

/-- Whether the first character of the list satisfies `p` (false when
empty). -/
def headP (p : Char → Bool) (l : List Char) : Bool :=
  match l with
  | [] => false
  | c :: _ => p c

/-- Whether the last character of the list satisfies `p` (false when
empty). -/
def lastP (p : Char → Bool) (l : List Char) : Bool :=
  headP p l.reverse

/-- No two adjacent characters both satisfy `p`. -/
def noAdj (p : Char → Bool) : List Char → Bool
  | c1 :: c2 :: rest => (!(p c1 && p c2)) && noAdj p (c2 :: rest)
  | _ => true

/-! ## Dynamically-typed record values

`transformer.py` builds and validates Python dicts whose values are either
strings or booleans.  To keep `validate_record`'s dynamic checks meaningful
(field presence, section enumeration, `isinstance(..., bool)`), records are
modelled as association lists from field name to a dynamic value. -/

inductive PyVal where
  | vStr (s : String)
  | vBool (b : Bool)
deriving DecidableEq, Repr

/-- A Python dict with string keys, as an insertion-ordered association
list. -/
abbrev PyDict (α : Type) : Type := List (String × α)

/-- Python `d.get(k)` / `d[k]`: the value of the first matching key. -/
def dictGet? {α : Type} (d : PyDict α) (k : String) : Option α :=
  match d with
  | [] => none
  | (k', v) :: rest => if k' = k then some v else dictGet? rest k

/-- Python `d.get(k, default)`. -/
def dictGetD {α : Type} (d : PyDict α) (k : String) (dflt : α) : α :=
  (dictGet? d k).getD dflt

/-- Python `d[k] = v`: replace the value in place if the key exists
(keeping its position), otherwise append the new pair. -/
def dictSet {α : Type} (d : PyDict α) (k : String) (v : α) : PyDict α :=
  match d with
  | [] => [(k, v)]
  | (k', v') :: rest =>
      if k' = k then (k', v) :: rest else (k', v') :: dictSet rest k v

/-- Python `k in d`. -/
def dictHas {α : Type} (d : PyDict α) (k : String) : Bool :=
  (dictGet? d k).isSome

/-! ## transformer.py -/

/-- A crawl-progress entry as read back from `metadata.json`, restricted to
the fields the transformer consults (`domain` and `crawl_time`). -/
structure MetaEntry where
  domain : String
  crawl_time : String
deriving DecidableEq, Repr

/-- transformer.py `find_website_url_by_domain`: first metadata entry whose
recorded domain matches wins; otherwise synthesize `https://www.<domain>`
(or `https://<domain>` when the domain already starts with `www.`); empty
domain resolves to the empty string. -/
def find_website_url_by_domain (domain : String) (metadata : PyDict MetaEntry) : String :=
  match metadata with
  | [] =>
      if domain ≠ "" then
        if ¬ pyStartsWith domain "www." then "https://www." ++ domain
        else "https://" ++ domain
      else ""
  | (url, data) :: rest =>
      if data.domain = domain then url else find_website_url_by_domain domain rest

/-- transformer.py `get_crawl_timestamp`: crawl time of the first metadata
entry whose domain matches, else the empty string. -/
def get_crawl_timestamp (domain : String) (metadata : PyDict MetaEntry) : String :=
  match metadata with
  | [] => ""
  | (_, data) :: rest =>
      if data.domain = domain then data.crawl_time else get_crawl_timestamp domain rest

/-- transformer.py `create_standardized_record`: the dict literal with the
content stripped (`content.strip() if content else ""`; stripping the empty
string is again empty, so both branches are `pyStrip content`). -/
def create_standardized_record (website_url sect content crawl_timestamp : String) :
    PyDict PyVal :=
  [("website", .vStr website_url),
   ("section", .vStr sect),
   ("content", .vStr (pyStrip content)),
   ("crawl_timestamp", .vStr crawl_timestamp),
   ("isActive", .vBool true)]

/-- The fixed section list of transformer.py (`sections` in
`transform_domain_data`, also `valid_sections` in `validate_record`). -/
def sectionsList : List String := ["navbar", "homepage", "footer", "case_study"]

/-- transformer.py `transform_domain_data`: one standardized record per fixed
section, reading the section's text from the domain's extraction dict with
default `""` (`domain_data.get(section, "")`). -/
def transform_domain_data (domain_name : String) (domain_data : PyDict String)
    (metadata : PyDict MetaEntry) : List (PyDict PyVal) :=
  let website_url := find_website_url_by_domain domain_name metadata
  let crawl_timestamp := get_crawl_timestamp domain_name metadata
  sectionsList.map (fun sect =>
    create_standardized_record website_url sect (dictGetD domain_data sect "")
      crawl_timestamp)

/-- transformer.py `validate_record`: all five required fields present, the
section value a string in the fixed four-value list, and `isActive` strictly
boolean. -/
def validate_record (record : PyDict PyVal) : Bool :=
  ["website", "section", "content", "crawl_timestamp", "isActive"].all
      (fun f => dictHas record f) &&
  (match dictGet? record "section" with
   | some (.vStr s) => sectionsList.contains s
   | _ => false) &&
  (match dictGet? record "isActive" with
   | some (.vBool _) => true
   | _ => false)

/-- The per-record step of the accumulation loop in transformer.py `main`:
a validated record is appended to the output; an invalid one only bumps the
`validation_errors` counter.  State is (records, validation_errors). -/
def addRecord (acc : List (PyDict PyVal) × Nat) (record : PyDict PyVal) :
    List (PyDict PyVal) × Nat :=
  if validate_record record then (acc.1 ++ [record], acc.2)
  else (acc.1, acc.2 + 1)

/-- The per-domain step of transformer.py `main`: transform the domain and
fold its records through validation. -/
def addDomain (metadata : PyDict MetaEntry) (acc : List (PyDict PyVal) × Nat)
    (dom : String × PyDict String) : List (PyDict PyVal) × Nat :=
  (transform_domain_data dom.1 dom.2 metadata).foldl addRecord acc

/-- The record-accumulation loop of transformer.py `main` over all domains of
the extraction snapshot.  Returns (records, validation_errors). -/
def transformDomains (domains : PyDict (PyDict String)) (metadata : PyDict MetaEntry) :
    List (PyDict PyVal) × Nat :=
  domains.foldl (addDomain metadata) ([], 0)

/-! ## aggregator.py

The aggregator consumes the flat list of standardized records.  Records are
modelled with a typed structure: the claims about the aggregator presuppose
input records that carry a website, a section, a content string and a
boolean `isActive`, which is exactly what the transformer emits.  Python
floats are modelled as exact rationals; `round(x, 2)` is modelled as
rounding `x·100` to the nearest integer (the half-to-even tie behaviour of
Python floats is immaterial to every claim below). -/

/-- A standardized record as the aggregator reads it.  The `section` field is
named `sect` because `section` is a Lean keyword. -/
structure SRecord where
  website : String
  sect : String
  content : String
  crawl_timestamp : String
  isActive : Bool
deriving DecidableEq, Repr

/-- Python `round(x, 2)` on exact rationals. -/
def pyRound2 (q : ℚ) : ℚ := (round (q * 100) : ℤ) / 100

/-- Python `min` on a list of naturals (callers only apply it to non-empty
lists; the empty case is arbitrary). -/
def pyMinNat : List Nat → Nat
  | [] => 0
  | x :: xs => xs.foldl Nat.min x

/-- Python `max` on a list of naturals. -/
def pyMaxNat : List Nat → Nat
  | [] => 0
  | x :: xs => xs.foldl Nat.max x

/-- Python `min` on a list of strings (lexicographic), `None` when empty. -/
def pyMinStr : List String → Option String
  | [] => none
  | x :: xs => some (xs.foldl (fun a b => if b < a then b else a) x)

/-- Python `max` on a list of strings (lexicographic), `None` when empty. -/
def pyMaxStr : List String → Option String
  | [] => none
  | x :: xs => some (xs.foldl (fun a b => if b > a then b else a) x)

/-- aggregator.py `compute_case_study_metrics`, grouping step:
`websites_data[website][section] = record` over a `defaultdict(dict)` —
insertion-ordered, and for a repeated (website, section) pair the last
record wins. -/
def groupBySite (records : List SRecord) : PyDict (PyDict SRecord) :=
  records.foldl
    (fun acc r => dictSet acc r.website (dictSet (dictGetD acc r.website []) r.sect r))
    []

/-- The case-study content of one website's section dict:
`sections.get('case_study', {}).get('content', '')`. -/
def csContent (sections : PyDict SRecord) : String :=
  match dictGet? sections "case_study" with
  | some r => r.content
  | none => ""

/-- One iteration of the counting loop of `compute_case_study_metrics`: a
website counts as having a case study iff its case-study content is truthy
and stays truthy after `strip()`.  State is (with, without, length list). -/
def csStep (acc : Nat × Nat × List Nat) (p : String × PyDict SRecord) :
    Nat × Nat × List Nat :=
  let c := csContent p.2
  if c ≠ "" ∧ pyStrip c ≠ "" then (acc.1 + 1, acc.2.1, acc.2.2 ++ [c.length])
  else (acc.1, acc.2.1 + 1, acc.2.2)

/-- The counting loop of `compute_case_study_metrics` over the grouped
websites. -/
def csLoop (wd : PyDict (PyDict SRecord)) : Nat × Nat × List Nat :=
  wd.foldl csStep (0, 0, [])

structure CaseStudyMetrics where
  total_websites : Nat
  websites_with_case_studies : Nat
  websites_without_case_studies : Nat
  case_study_percentage : ℚ
  average_case_study_length : ℚ
deriving DecidableEq, Repr

/-- aggregator.py `compute_case_study_metrics`. -/
def compute_case_study_metrics (records : List SRecord) : CaseStudyMetrics :=
  let wd := groupBySite records
  let counts := csLoop wd
  let total := wd.length
  let pct : ℚ := if total > 0 then (counts.1 : ℚ) / total * 100 else 0
  let avg : ℚ :=
    if counts.2.2 ≠ [] then ((counts.2.2.map (Nat.cast)).sum : ℚ) / counts.2.2.length else 0
  { total_websites := total
    websites_with_case_studies := counts.1
    websites_without_case_studies := counts.2.1
    case_study_percentage := pyRound2 pct
    average_case_study_length := if avg > 0 then pyRound2 avg else 0 }

/-- aggregator.py `compute_activity_metrics`, grouping step for one record:
`websites_activity[website].append(is_active)` over a `defaultdict(list)`.
(The code reads `record.get('isActive', True)`; in the typed record the
field is always present.) -/
def actGroupStep (acc : PyDict (List Bool)) (r : SRecord) : PyDict (List Bool) :=
  dictSet acc r.website (dictGetD acc r.website [] ++ [r.isActive])

/-- aggregator.py `compute_activity_metrics`, grouping over all records. -/
def groupActivity (records : List SRecord) : PyDict (List Bool) :=
  records.foldl actGroupStep []

/-- One iteration of the counting loop of `compute_activity_metrics`: a
website is active iff `all` of its records' `isActive` flags hold. -/
def actStep (acc : Nat × Nat) (p : String × List Bool) : Nat × Nat :=
  if p.2.all id then (acc.1 + 1, acc.2) else (acc.1, acc.2 + 1)

/-- The counting loop of `compute_activity_metrics` over the grouped
websites. -/
def actLoop (wa : PyDict (List Bool)) : Nat × Nat :=
  wa.foldl actStep (0, 0)

/-- First-occurrence deduplication step (the key order a Python dict built by
repeated insertion ends up with). -/
def dedupStep (acc : List String) (s : String) : List String :=
  if acc.contains s then acc else acc ++ [s]

/-- The distinct elements of a list in first-occurrence order. -/
def dedupFirst (l : List String) : List String :=
  l.foldl dedupStep []

structure ActivityMetrics where
  total_websites : Nat
  active_websites : Nat
  inactive_websites : Nat
  active_percentage : ℚ
deriving DecidableEq, Repr

/-- aggregator.py `compute_activity_metrics`. -/
def compute_activity_metrics (records : List SRecord) : ActivityMetrics :=
  let wa := groupActivity records
  let counts := actLoop wa
  let total := wa.length
  let pct : ℚ := if total > 0 then (counts.1 : ℚ) / total * 100 else 0
  { total_websites := total
    active_websites := counts.1
    inactive_websites := counts.2
    active_percentage := pyRound2 pct }

structure SectionMetrics where
  average_length : ℚ
  min_length : Nat
  max_length : Nat
  total_records : Nat
  non_empty_records : Nat
  empty_records : Nat
  non_empty_percentage : ℚ
deriving DecidableEq, Repr

/-- aggregator.py `compute_content_length_metrics`, grouping step:
`section_lengths[section].append(len(content))` (the parallel
`section_counts` tally is computed by the code but never read). -/
def groupLengths (records : List SRecord) : PyDict (List Nat) :=
  records.foldl
    (fun acc r => dictSet acc r.sect (dictGetD acc r.sect [] ++ [r.content.length]))
    []

/-- aggregator.py `compute_content_length_metrics`. -/
def compute_content_length_metrics (records : List SRecord) : PyDict SectionMetrics :=
  (groupLengths records).map (fun p =>
    let lengths := p.2
    if lengths ≠ [] then
      let nonEmpty := lengths.countP (fun n => n > 0)
      (p.1,
       { average_length := pyRound2 (((lengths.map (Nat.cast)).sum : ℚ) / lengths.length)
         min_length := pyMinNat lengths
         max_length := pyMaxNat lengths
         total_records := lengths.length
         non_empty_records := nonEmpty
         empty_records := lengths.length - nonEmpty
         non_empty_percentage :=
           if lengths.length > 0 then pyRound2 ((nonEmpty : ℚ) / lengths.length * 100) else 0 })
    else
      (p.1,
       { average_length := 0, min_length := 0, max_length := 0, total_records := 0
         non_empty_records := 0, empty_records := 0, non_empty_percentage := 0 }))

structure CrawlPeriod where
  earliest : Option String
  latest : Option String
  total_timestamps : Nat
deriving DecidableEq, Repr

structure AdditionalMetrics where
  total_records : Nat
  unique_websites : Nat
  total_content_length : Nat
  average_content_length_overall : ℚ
  non_empty_records : Nat
  empty_records : Nat
  content_fill_rate : ℚ
  section_distribution : PyDict Nat
  website_distribution : PyDict Nat
  crawl_period : CrawlPeriod
deriving DecidableEq, Repr

/-- Python `collections.Counter` over a list of strings: counts keyed in
first-occurrence order. -/
def counterOf (l : List String) : PyDict Nat :=
  l.foldl (fun acc s => dictSet acc s (dictGetD acc s 0 + 1)) []

/-- aggregator.py `compute_additional_metrics`. -/
def compute_additional_metrics (records : List SRecord) : AdditionalMetrics :=
  let total := records.length
  let totalLen := (records.map (fun r => r.content.length)).sum
  let websiteCounts := counterOf (records.map (fun r => r.website))
  let sectionCounts := counterOf (records.map (fun r => r.sect))
  let timestamps := (records.filter (fun r => r.crawl_timestamp ≠ "")).map
    (fun r => r.crawl_timestamp)
  let nonEmpty := records.countP (fun r => pyStrip r.content ≠ "")
  { total_records := total
    unique_websites := websiteCounts.length
    total_content_length := totalLen
    average_content_length_overall :=
      if total > 0 then pyRound2 ((totalLen : ℚ) / total) else 0
    non_empty_records := nonEmpty
    empty_records := total - nonEmpty
    content_fill_rate := if total > 0 then pyRound2 ((nonEmpty : ℚ) / total * 100) else 0
    section_distribution := sectionCounts
    website_distribution := websiteCounts
    crawl_period :=
      { earliest := pyMinStr timestamps
        latest := pyMaxStr timestamps
        total_timestamps := timestamps.length } }

/-- The metrics container assembled by aggregator.py `main`; the analysis
fields start out as empty dicts (modelled `none`) and are filled before
validation runs. -/
structure Metrics where
  case_study_analysis : Option CaseStudyMetrics
  activity_analysis : Option ActivityMetrics
  content_length_by_section : PyDict SectionMetrics
  additional_metrics : Option AdditionalMetrics
  validation_passed : Bool
deriving DecidableEq, Repr

/-- aggregator.py `validate_metrics`, error-collection part: the sum
cross-checks on the case-study and activity reports (each guarded by the
truthiness of the sub-dict) and the presence check for the four expected
sections. -/
def validate_metrics_errors (m : Metrics) : List String :=
  (match m.case_study_analysis with
   | some cs =>
       if cs.websites_with_case_studies + cs.websites_without_case_studies ≠
           cs.total_websites then
         ["Case study totals don\x27t match"]
       else []
   | none => []) ++
  (match m.activity_analysis with
   | some a =>
       if a.active_websites + a.inactive_websites ≠ a.total_websites then
         ["Activity totals don\x27t match"]
       else []
   | none => []) ++
  sectionsList.filterMap (fun s =>
    if dictHas m.content_length_by_section s then none
    else some ("Missing section metrics: " ++ s))

/-- aggregator.py `validate_metrics`: passes iff no error was collected. -/
def validate_metrics (m : Metrics) : Bool :=
  (validate_metrics_errors m).isEmpty

/-- The metrics-assembly of aggregator.py `main` (on a successfully loaded,
non-empty record list): compute the four analyses, then run validation. -/
def aggregateMetrics (records : List SRecord) : Metrics :=
  let m : Metrics :=
    { case_study_analysis := some (compute_case_study_metrics records)
      activity_analysis := some (compute_activity_metrics records)
      content_length_by_section := compute_content_length_metrics records
      additional_metrics := some (compute_additional_metrics records)
      validation_passed := false }
  { m with validation_passed := validate_metrics m }

/-! ## HTML documents and CSS selectors

HTML documents are modelled as node trees (a parsed `BeautifulSoup` object
is a list of root nodes).  The selector engine covers exactly the selector
forms the repository uses: type selectors (`nav`), class selectors
(`.navbar`), exact attribute selectors (`[role="navigation"]`, and `#footer`
as `[id="footer"]`), and the descendant combinator (`header nav`).
`select_one` returns the first match in document order (pre-order
depth-first), as soupsieve does. -/

inductive HNode where
  | elem (tag : String) (attrs : List (String × String)) (children : List HNode)
  | text (s : String)
  | comment (s : String)

inductive Sel where
  | tag (t : String)
  | cls (c : String)
  | attrEq (k v : String)
  | desc (a b : Sel)

/-- Split a class attribute value on whitespace into class tokens
(accumulator holds the current token reversed). -/
def classTokensAux : List Char → List Char → List String
  | acc, [] => if acc.isEmpty then [] else [acc.reverse.asString]
  | acc, c :: cs =>
      if pyIsSpace c then
        if acc.isEmpty then classTokensAux [] cs
        else acc.reverse.asString :: classTokensAux [] cs
      else classTokensAux (c :: acc) cs

/-- The whitespace-separated class tokens of a `class` attribute value. -/
def classTokens (s : String) : List String := classTokensAux [] s.toList

/-- Whether an attribute list carries the given class token. -/
def hasClass (attrs : List (String × String)) (c : String) : Bool :=
  (classTokens ((dictGet? attrs "class").getD "")).contains c

/-- Whether a node matches a selector, given the node's ancestors (nearest
first; each ancestor's own ancestors are the remainder of the list). -/
def selMatches (ancs : List HNode) (n : HNode) : Sel → Bool
  | .tag t =>
      match n with
      | .elem t' _ _ => t' == t
      | _ => false
  | .cls c =>
      match n with
      | .elem _ attrs _ => hasClass attrs c
      | _ => false
  | .attrEq k v =>
      match n with
      | .elem _ attrs _ => dictGet? attrs k == some v
      | _ => false
  | .desc a b =>
      selMatches ancs n b &&
      ancs.tails.any (fun tl =>
        match tl with
        | m :: rest => selMatches rest m a
        | [] => false)

mutual
/-- Depth-first search for `select_one` starting at one node. -/
def selectOneNode (sel : Sel) (ancs : List HNode) : HNode → Option HNode
  | .elem t attrs children =>
      if selMatches ancs (.elem t attrs children) sel then some (.elem t attrs children)
      else selectOneList sel (.elem t attrs children :: ancs) children
  | _ => none
/-- Depth-first search for `select_one` over a sibling list. -/
def selectOneList (sel : Sel) (ancs : List HNode) : List HNode → Option HNode
  | [] => none
  | n :: rest =>
      match selectOneNode sel ancs n with
      | some r => some r
      | none => selectOneList sel ancs rest
end

/-- `soup.select_one(sel)`: first matching element in document order. -/
def soup_select_one (doc : List HNode) (sel : Sel) : Option HNode :=
  selectOneList sel [] doc

/-- The tags removed before text extraction
(`soup(["script", "style", "noscript"])` followed by `decompose`). -/
def isStripTag (t : String) : Bool :=
  t == "script" || t == "style" || t == "noscript"

mutual
/-- Remove script/style/noscript elements and comments from one node
(extractor.py `extract_text_from_soup`, removal phase). -/
def stripScripts : HNode → Option HNode
  | .elem t attrs children =>
      if isStripTag t then none
      else some (.elem t attrs (stripScriptsList children))
  | .text s => some (.text s)
  | .comment _ => none
/-- Removal phase over a sibling list. -/
def stripScriptsList : List HNode → List HNode
  | [] => []
  | n :: rest =>
      match stripScripts n with
      | some m => m :: stripScriptsList rest
      | none => stripScriptsList rest
end

mutual
/-- `get_text()`: the concatenation of all text-node strings in order. -/
def getTextNode : HNode → String
  | .elem _ _ children => getTextList children
  | .text s => s
  | .comment _ => ""
/-- `get_text()` over a sibling list. -/
def getTextList : List HNode → String
  | [] => ""
  | n :: rest => getTextNode n ++ getTextList rest
end

/-- extractor.py `extract_text_from_soup` applied to a soup or element given
as a list of roots: strip scripts/styles/noscripts and comments, take the
text, clean it. -/
def extract_text_from_soup (roots : List HNode) : String :=
  clean_text (getTextList (stripScriptsList roots))

/-- The navbar selector chain, shared verbatim by extractor.py
`extract_navbar_text` and crawler.py `extract_navbar_html`. -/
def navbar_selectors : List Sel :=
  [.tag "nav", .desc (.tag "header") (.tag "nav"), .attrEq "role" "navigation",
   .cls "navbar", .cls "nav", .cls "navigation", .tag "header"]

/-- The footer selector chain of extractor.py `extract_footer_text` and
crawler.py `extract_footer_html`. -/
def footer_selectors : List Sel :=
  [.tag "footer", .attrEq "role" "contentinfo", .cls "footer",
   .cls "site-footer", .attrEq "id" "footer"]

/-- The shared loop shape of all the extraction chains: the first selector
whose `select_one` finds an element wins. -/
def selectFirstMatch (doc : List HNode) : List Sel → Option HNode
  | [] => none
  | sel :: rest =>
      match soup_select_one doc sel with
      | some n => some n
      | none => selectFirstMatch doc rest

/-- extractor.py `extract_navbar_text`. -/
def extract_navbar_text (doc : List HNode) : String :=
  match selectFirstMatch doc navbar_selectors with
  | some n => extract_text_from_soup [n]
  | none => ""

/-- crawler.py `extract_navbar_html`: same chain, but the matched element
itself is returned (the crawler serializes it with `str`). -/
def extract_navbar_html (doc : List HNode) : Option HNode :=
  selectFirstMatch doc navbar_selectors

/-- crawler.py `extract_footer_html`. -/
def extract_footer_html (doc : List HNode) : Option HNode :=
  selectFirstMatch doc footer_selectors

def renderAttrs : List (String × String) → String
  | [] => ""
  | (k, v) :: rest => " " ++ k ++ "=\x22" ++ v ++ "\x22" ++ renderAttrs rest

mutual
/-- Serialization of a node back to HTML text (Python `str(tag)`),
approximated without entity escaping; it only feeds recorded content-length
numbers, which no claim depends on. -/
def renderNode : HNode → String
  | .elem t attrs children =>
      "<" ++ t ++ renderAttrs attrs ++ ">" ++ renderList children ++ "</" ++ t ++ ">"
  | .text s => s
  | .comment s => "<!--" ++ s ++ "-->"
/-- Serialization of a sibling list. -/
def renderList : List HNode → String
  | [] => ""
  | n :: rest => renderNode n ++ renderList rest
end

mutual
/-- `find_all('a', href=True)` on one node: the (href, text) pairs of all
anchor elements carrying an href attribute, in document order. -/
def linksOfNode : HNode → List (String × String)
  | .elem t attrs children =>
      (if t == "a" && (dictGet? attrs "href").isSome then
        [((dictGet? attrs "href").getD "", getTextList children)]
      else []) ++ linksOfList children
  | _ => []
/-- `find_all('a', href=True)` over a sibling list. -/
def linksOfList : List HNode → List (String × String)
  | [] => []
  | n :: rest => linksOfNode n ++ linksOfList rest
end

/-! ## URL parsing and joining

A model of the subset of `urllib.parse` the crawler exercises: absolute
http(s) URLs, scheme-relative, root-relative and plain relative references.
Dot-segment normalization (`.` and `..`) is not performed; no crawler claim
depends on it. -/

structure UrlParts where
  scheme : String
  netloc : String
  path : String
  query : String
  fragment : String
deriving DecidableEq, Repr

/-- Split a character list at the first occurrence of `ch` (the separator is
dropped); `none` when absent. -/
def splitAtChar (ch : Char) : List Char → Option (List Char × List Char)
  | [] => none
  | c :: cs =>
      if c = ch then some ([], cs)
      else (splitAtChar ch cs).map (fun p => (c :: p.1, p.2))

/-- Take the prefix up to (excluding) the first character among `stops`. -/
def takeUntilAny (stops : List Char) : List Char → List Char × List Char
  | [] => ([], [])
  | c :: cs =>
      if stops.contains c then ([], c :: cs)
      else
        let p := takeUntilAny stops cs
        (c :: p.1, p.2)

/-- The characters allowed after the first letter of a URL scheme. -/
def isSchemeChar (c : Char) : Bool :=
  c.isAlpha || c.isDigit || c == '+' || c == '-' || c == '.'

/-- Whether a candidate scheme (the part before the first `:`) is valid. -/
def validScheme : List Char → Bool
  | [] => false
  | c :: cs => c.isAlpha && cs.all isSchemeChar

/-- `urllib.parse.urlparse` (the components the crawler reads; the `params`
component is ignored). -/
def pyUrlparse (url : String) : UrlParts :=
  let l := url.toList
  let sr : List Char × List Char :=
    match splitAtChar ':' l with
    | some (before, after) =>
        if validScheme before then (before.map Char.toLower, after) else ([], l)
    | none => ([], l)
  let nr : List Char × List Char :=
    if ['/', '/'].isPrefixOf sr.2 then takeUntilAny ['/', '?', '#'] (sr.2.drop 2)
    else ([], sr.2)
  let fr : List Char × List Char :=
    match splitAtChar '#' nr.2 with
    | some (a, b) => (a, b)
    | none => (nr.2, [])
  let qr : List Char × List Char :=
    match splitAtChar '?' fr.1 with
    | some (a, b) => (a, b)
    | none => (fr.1, [])
  { scheme := sr.1.asString, netloc := nr.1.asString, path := qr.1.asString,
    query := qr.2.asString, fragment := fr.2.asString }

/-- `urllib.parse.urlunparse` for the components above. -/
def pyUrlunparse (scheme netloc path query fragment : String) : String :=
  let p := if netloc ≠ "" ∧ path ≠ "" ∧ ¬ pyStartsWith path "/" then "/" ++ path else path
  (if scheme ≠ "" then scheme ++ ":" else "") ++
  (if netloc ≠ "" then "//" ++ netloc else "") ++ p ++
  (if query ≠ "" then "?" ++ query else "") ++
  (if fragment ≠ "" then "#" ++ fragment else "")

/-- The schemes `urljoin` treats as supporting relative references
(`urllib.parse.uses_relative`). -/
def usesRelative : List String :=
  ["", "ftp", "http", "gopher", "nntp", "imap", "wais", "file", "https",
   "shttp", "mms", "prospero", "rtsp", "rtspu", "sftp", "svn", "svn+ssh",
   "ws", "wss"]

/-- The directory part of a path: everything up to and including the last
slash (empty when the path has no slash). -/
def dirOf (p : String) : String :=
  ((p.toList.reverse.dropWhile (fun c => c ≠ '/')).reverse).asString

/-- `urllib.parse.urljoin` on the modelled subset (a reference with a scheme
outside `uses_relative` is returned unchanged; a reference with a netloc
keeps it; otherwise scheme/netloc come from the base and the paths are
merged, without dot-segment normalization). -/
def pyUrljoin (base url : String) : String :=
  if base = "" then url
  else if url = "" then base
  else
    let bp := pyUrlparse base
    let up := pyUrlparse url
    let scheme := if up.scheme = "" then bp.scheme else up.scheme
    if scheme ≠ bp.scheme ∨ ¬ usesRelative.contains scheme then url
    else if up.netloc ≠ "" then
      pyUrlunparse scheme up.netloc up.path up.query up.fragment
    else if up.path = "" then
      pyUrlunparse scheme bp.netloc bp.path
        (if up.query = "" then bp.query else up.query) up.fragment
    else
      let path := if pyStartsWith up.path "/" then up.path else dirOf bp.path ++ up.path
      pyUrlunparse scheme bp.netloc path up.query up.fragment

/-! ## crawler.py

The network is an oracle mapping a URL to an outcome; since HTML parsing is
not modelled, a successful response carries both its raw text and its parse.
`fetch_url` turns the outcome into `Option`, with `raise_for_status`
converting 4xx/5xx responses into failures.  File writes are modelled by the
path they would produce, and `crawl_website` additionally returns the list
of URLs it requested, in order. -/

inductive FetchOutcome where
  | netError
  | response (status : Nat) (text : String) (dom : List HNode)

/-- crawler.py `fetch_url`: `None` on timeout/connection errors (collapsed
into `netError`) and on 4xx/5xx statuses (`raise_for_status`). -/
def fetch_url (oracle : String → FetchOutcome) (url : String) :
    Option (Nat × String × List HNode) :=
  match oracle url with
  | .netError => none
  | .response st tx dom => if 400 ≤ st ∧ st < 600 then none else some (st, tx, dom)

structure PageInfo where
  url : String
  http_status : Nat
  file_path : String
  content_length : Nat
deriving DecidableEq, Repr

structure ComponentInfo where
  file_path : String
  content_length : Nat
deriving DecidableEq, Repr

/-- A per-site crawl-progress record (one value of the crawler's metadata
dict).  `error`, `pages_crawled` and `components_extracted` are optional
because the code only adds those keys on some paths. -/
structure CrawlData where
  url : String
  domain : String
  crawl_time : String
  timestamp : Nat
  status : String
  pages : PyDict PageInfo
  components : PyDict ComponentInfo
  error : Option String
  pages_crawled : Option Nat
  components_extracted : Option Nat
deriving DecidableEq, Repr

/-- crawler.py `save_html_file`, modelled as the relative path it returns
(write failures are not modelled). -/
def save_html_file (domain filename : String) : String :=
  "data/raw/" ++ domain ++ "/" ++ filename

/-- crawler.py `get_domain_name`: netloc with a leading `www.` stripped. -/
def get_domain_name (url : String) : String :=
  let d := (pyUrlparse url).netloc
  if pyStartsWith d "www." then ((d.toList.drop 4).asString) else d

/-- The idempotency gate of crawler.py `crawl_website`:
`base_url in metadata and metadata[base_url].get('status') == 'completed'`. -/
def isCompleted (metadata : PyDict CrawlData) (base_url : String) : Bool :=
  match dictGet? metadata base_url with
  | some cd => cd.status == "completed"
  | none => false

/-- The keyword list of crawler.py `find_case_study_url`. -/
def caseStudyKeywords : List String :=
  ["case", "success", "story", "customer", "testimonial"]

/-- The link loop of crawler.py `find_case_study_url` over the collected
(href, text) pairs: a keyword hit whose resolved URL fails the
internal/scheme/self checks does not end the scan. -/
def findCSAux (base_url base_domain : String) : List (String × String) → Option String
  | [] => none
  | (href, txt) :: rest =>
      let link_text := pyStrip (pyLower txt)
      let href_lower := pyLower href
      if caseStudyKeywords.any (fun kw => pyInStr kw href_lower || pyInStr kw link_text) then
        let full_url := pyUrljoin base_url href
        let pu := pyUrlparse full_url
        if pu.netloc = base_domain ∧ (pu.scheme = "http" ∨ pu.scheme = "https") ∧
            full_url ≠ base_url then
          some full_url
        else findCSAux base_url base_domain rest
      else findCSAux base_url base_domain rest

/-- crawler.py `find_case_study_url`. -/
def find_case_study_url (base_url : String) (doc : List HNode) : Option String :=
  findCSAux base_url (pyUrlparse base_url).netloc (linksOfList doc)

/-- The per-link qualifier of case-study discovery as a single function:
`some full_url` iff the link has a keyword in its lowercased href or its
lowercased stripped text, resolves to the base domain over http(s), and
differs from the homepage URL. -/
def csQualify (base_url base_domain : String) (lk : String × String) : Option String :=
  if caseStudyKeywords.any (fun kw =>
      pyInStr kw (pyLower lk.1) || pyInStr kw (pyStrip (pyLower lk.2))) then
    let full_url := pyUrljoin base_url lk.1
    let pu := pyUrlparse full_url
    if pu.netloc = base_domain ∧ (pu.scheme = "http" ∨ pu.scheme = "https") ∧
        full_url ≠ base_url then
      some full_url
    else none
  else none

/-- The binary-extension exclusion list of crawler.py
`extract_internal_links`. -/
def binaryExts : List String := [".pdf", ".jpg", ".png", ".gif", ".zip"]

/-- The accumulation loop of crawler.py `extract_internal_links`: first-seen
order, duplicates skipped, early stop once the cap is reached. -/
def eilAux (base_url base_domain : String) (max_links : Nat) :
    List String → List (String × String) → List String
  | acc, [] => acc
  | acc, (href, _) :: rest =>
      let full_url := pyUrljoin base_url href
      let pu := pyUrlparse full_url
      if pu.netloc = base_domain ∧ (pu.scheme = "http" ∨ pu.scheme = "https") ∧
          pu.path ≠ "/" ∧ (¬ binaryExts.any (fun e => pyEndsWith pu.path e)) ∧
          full_url ≠ base_url then
        if acc.contains full_url then eilAux base_url base_domain max_links acc rest
        else
          let acc2 := acc ++ [full_url]
          if max_links ≤ acc2.length then acc2
          else eilAux base_url base_domain max_links acc2 rest
      else eilAux base_url base_domain max_links acc rest

/-- crawler.py `extract_internal_links`. -/
def extract_internal_links (base_url : String) (doc : List HNode) (max_links : Nat) :
    List String :=
  (eilAux base_url (pyUrlparse base_url).netloc max_links [] (linksOfList doc)).take max_links

/-- The internal-page fetch loop of crawler.py `crawl_website`
(`enumerate(internal_links, 1)`): a failed fetch is logged and skipped.
Returns the updated record and the URLs requested. -/
def internalFetchLoop (oracle : String → FetchOutcome) (domain : String) :
    CrawlData → Nat → List String → CrawlData × List String
  | cd, _, [] => (cd, [])
  | cd, i, link_url :: rest =>
      match fetch_url oracle link_url with
      | some (st, tx, _) =>
          let cd2 := { cd with pages := (dictSet cd.pages ("internal_" ++ toString i)
            ({ url := link_url, http_status := st,
               file_path := save_html_file domain ("internal_page_" ++ toString i ++ ".html"),
               content_length := tx.length })) }
          let p := internalFetchLoop oracle domain cd2 (i + 1) rest
          (p.1, link_url :: p.2)
      | none =>
          let p := internalFetchLoop oracle domain cd (i + 1) rest
          (p.1, link_url :: p.2)

/-- crawler.py `crawl_website`: the whole per-site state machine, returning
the updated metadata map and the ordered list of URLs requested.  The
`except` arm of the code (which would set an `error` key) is unreachable in
the model because no modelled operation raises. -/
def crawl_website (oracle : String → FetchOutcome) (now_iso : String) (now_ts : Nat)
    (metadata : PyDict CrawlData) (base_url : String) : PyDict CrawlData × List String :=
  let domain := get_domain_name base_url
  if isCompleted metadata base_url then (metadata, [])
  else
    let crawl0 : CrawlData :=
      { url := base_url, domain := domain, crawl_time := now_iso, timestamp := now_ts,
        status := "failed", pages := [], components := [], error := none,
        pages_crawled := none, components_extracted := none }
    match fetch_url oracle base_url with
    | none => (dictSet metadata base_url crawl0, [base_url])
    | some (st, tx, dom) =>
        let c1 := { crawl0 with pages := (dictSet crawl0.pages "homepage"
          ({ url := base_url, http_status := st,
             file_path := save_html_file domain "homepage.html",
             content_length := tx.length })) }
        let c2 :=
          match extract_navbar_html dom with
          | some nav => { c1 with components := (dictSet c1.components "navbar"
              ({ file_path := save_html_file domain "navbar.html",
                 content_length := (renderNode nav).length })) }
          | none => c1
        let c3 :=
          match extract_footer_html dom with
          | some ftr => { c2 with components := (dictSet c2.components "footer"
              ({ file_path := save_html_file domain "footer.html",
                 content_length := (renderNode ftr).length })) }
          | none => c2
        let csPair :=
          match find_case_study_url base_url dom with
          | some cs_url =>
              (match fetch_url oracle cs_url with
               | some (st2, tx2, _) =>
                  ({ c3 with pages := (dictSet c3.pages "case_study"
                     ({ url := cs_url, http_status := st2,
                        file_path := save_html_file domain "case_study.html",
                        content_length := tx2.length })) }, [cs_url])
               | none => (c3, [cs_url]))
          | none => (c3, [])
        let links := extract_internal_links base_url dom 2
        let ilPair := internalFetchLoop oracle domain csPair.1 1 links
        let cdone := { ilPair.1 with
          status := "completed"
          pages_crawled := some ilPair.1.pages.length
          components_extracted := some ilPair.1.components.length }
        (dictSet metadata base_url cdone, base_url :: (csPair.2 ++ ilPair.2))

/-- Whether a node is an element with the given tag (the ancestor-free
meaning of a type selector). -/
def isTagElem (t : String) (n : HNode) : Bool :=
  match n with
  | .elem t2 _ _ => t2 == t
  | _ => false

/-- Whether a node is an element carrying the `navbar` class. -/
def hasNavbarClassElem (n : HNode) : Bool :=
  match n with
  | .elem _ attrs _ => hasClass attrs "navbar"
  | _ => false

mutual
/-- Whether `q` holds of a node or any of its descendants. -/
def anyNode (q : HNode → Bool) : HNode → Bool
  | .elem t a cs => q (.elem t a cs) || anyList q cs
  | .text s => q (.text s)
  | .comment s => q (.comment s)
/-- Whether `q` holds anywhere in a forest. -/
def anyList (q : HNode → Bool) : List HNode → Bool
  | [] => false
  | n :: rest => anyNode q n || anyList q rest
end

/-- The homepage of the spec's case-study discovery example: three links
`/about`, `/customer-stories/acme`, `/contact` in document order. -/
def c5Doc : List HNode :=
  [.elem "body" []
    [.elem "a" [("href", "/about")] [.text "About"],
     .elem "a" [("href", "/customer-stories/acme")] [.text "Acme case study"],
     .elem "a" [("href", "/contact")] [.text "Contact"]]]

/-! ## Theorems about transformer.py -/

theorem validate_record_create (w sect c t : String) (h : sect ∈ sectionsList) :
    validate_record (create_standardized_record w sect c t) = true := by
  fin_cases h <;> rfl

theorem transform_domain_data_valid (n : String) (dd : PyDict String)
    (m : PyDict MetaEntry) :
    ∀ r ∈ transform_domain_data n dd m, validate_record r = true := by
  intro r hr
  simp only [transform_domain_data, List.mem_map] at hr
  obtain ⟨sect, hs, rfl⟩ := hr
  exact validate_record_create _ _ _ _ hs

theorem transform_domain_data_length (n : String) (dd : PyDict String)
    (m : PyDict MetaEntry) :
    (transform_domain_data n dd m).length = 4 := by
  simp [transform_domain_data, sectionsList]

theorem foldl_addRecord_valid (rs : List (PyDict PyVal)) :
    ∀ (acc : List (PyDict PyVal) × Nat), (∀ r ∈ rs, validate_record r = true) →
      rs.foldl addRecord acc = (acc.1 ++ rs, acc.2) := by
  induction rs with
  | nil => intro acc _; simp
  | cons r rs ih =>
      intro acc h
      simp only [List.foldl_cons]
      have hv : validate_record r = true := h r (by simp)
      simp only [addRecord, hv, if_true]
      rw [ih _ (fun x hx => h x (by simp [hx]))]
      simp

theorem addDomain_spec (m : PyDict MetaEntry) (acc : List (PyDict PyVal) × Nat)
    (dom : String × PyDict String) :
    addDomain m acc dom = (acc.1 ++ transform_domain_data dom.1 dom.2 m, acc.2) := by
  rw [addDomain, foldl_addRecord_valid _ _ (transform_domain_data_valid _ _ _)]

theorem transformDomains_foldl (m : PyDict MetaEntry) (domains : PyDict (PyDict String)) :
    ∀ acc, (domains.foldl (addDomain m) acc).1.length = acc.1.length + 4 * domains.length ∧
      (domains.foldl (addDomain m) acc).2 = acc.2 := by
  induction domains with
  | nil => simp
  | cons d ds ih =>
      intro acc
      simp only [List.foldl_cons, addDomain_spec]
      obtain ⟨h1, h2⟩ := ih (acc.1 ++ transform_domain_data d.1 d.2 m, acc.2)
      refine ⟨?_, h2⟩
      rw [h1]
      simp [transform_domain_data_length]
      ring

/-- C1: for every domain of the extraction snapshot, `transform_domain_data`
emits exactly four standardized records, one per fixed section in order
navbar, homepage, footer, case_study, and the content of each record is the
(stripped) extraction field, defaulting to the empty string when the field
is absent or empty — a record is emitted for every section, never dropped. -/
theorem c1_transformer_emits_four_records (n : String) (dd : PyDict String)
    (m : PyDict MetaEntry) :
    (transform_domain_data n dd m).length = 4 ∧
    (transform_domain_data n dd m).map (fun r => dictGet? r "section") =
      [some (.vStr "navbar"), some (.vStr "homepage"),
       some (.vStr "footer"), some (.vStr "case_study")] ∧
    (transform_domain_data n dd m).map (fun r => dictGet? r "content") =
      [some (.vStr (pyStrip (dictGetD dd "navbar" ""))),
       some (.vStr (pyStrip (dictGetD dd "homepage" ""))),
       some (.vStr (pyStrip (dictGetD dd "footer" ""))),
       some (.vStr (pyStrip (dictGetD dd "case_study" "")))] := by
  refine ⟨transform_domain_data_length n dd m, ?_, ?_⟩ <;>
    simp [transform_domain_data, create_standardized_record, sectionsList, dictGet?]

/-- C9: every record built by `create_standardized_record` for a section of
the fixed list passes `validate_record` (all five fields present, section in
the enum, `isActive` strictly boolean); consequently the transformer's
`validation_errors` counter stays 0 and all 4·(number of domains) records
are kept. -/
theorem c9_created_records_always_validate (w sect c t : String)
    (h : sect ∈ sectionsList) (domains : PyDict (PyDict String))
    (m : PyDict MetaEntry) :
    validate_record (create_standardized_record w sect c t) = true ∧
    (transformDomains domains m).2 = 0 ∧
    (transformDomains domains m).1.length = 4 * domains.length := by
  refine ⟨validate_record_create _ _ _ _ h, ?_, ?_⟩
  · exact (transformDomains_foldl m domains ([], 0)).2
  · have := (transformDomains_foldl m domains ([], 0)).1
    simpa [transformDomains] using this

/-! ## Dictionary lemmas -/

theorem dictGet?_dictSet {α : Type} (d : PyDict α) (k k' : String) (v : α) :
    dictGet? (dictSet d k v) k' = if k' = k then some v else dictGet? d k' := by
  induction d with
  | nil =>
      rcases eq_or_ne k' k with rfl | h
      · simp [dictSet, dictGet?]
      · simp [dictSet, dictGet?, h, Ne.symm h]
  | cons p rest ih =>
      obtain ⟨k₀, v₀⟩ := p
      rcases eq_or_ne k₀ k with rfl | h0
      · rcases eq_or_ne k₀ k' with rfl | h1
        · simp [dictSet, dictGet?]
        · simp [dictSet, dictGet?, h1, Ne.symm h1]
      · rcases eq_or_ne k₀ k' with rfl | h1
        · simp [dictSet, dictGet?, h0, Ne.symm h0]
        · simp [dictSet, dictGet?, h0, h1, Ne.symm h1, ih]

theorem dictHas_iff {α : Type} (d : PyDict α) (k : String) :
    dictHas d k = true ↔ k ∈ d.map Prod.fst := by
  induction d with
  | nil => simp [dictHas, dictGet?]
  | cons p rest ih =>
      obtain ⟨k₀, v₀⟩ := p
      rcases eq_or_ne k₀ k with rfl | h
      · simp [dictHas, dictGet?]
      · have := ih
        simp only [dictHas] at this ⊢
        simp [dictGet?, h, Ne.symm h, this]

theorem keys_dictSet {α : Type} (d : PyDict α) (k : String) (v : α) :
    (dictSet d k v).map Prod.fst =
      if dictHas d k then d.map Prod.fst else d.map Prod.fst ++ [k] := by
  induction d with
  | nil => simp [dictSet, dictHas, dictGet?]
  | cons p rest ih =>
      obtain ⟨k₀, v₀⟩ := p
      by_cases h : k₀ = k
      · subst h; simp [dictSet, dictHas, dictGet?]
      · simp only [dictSet, if_neg h, List.map_cons, ih]
        have : dictHas ((k₀, v₀) :: rest) k = dictHas rest k := by
          simp [dictHas, dictGet?, h]
        rw [this]
        split <;> simp

theorem nodup_keys_dictSet {α : Type} (d : PyDict α) (k : String) (v : α)
    (h : (d.map Prod.fst).Nodup) : ((dictSet d k v).map Prod.fst).Nodup := by
  rw [keys_dictSet]
  split
  · exact h
  · rename_i hk
    have : k ∉ d.map Prod.fst := fun hm => hk ((dictHas_iff d k).mpr hm)
    simp [List.nodup_append, h, this]

theorem dictGet?_of_mem_nodup {α : Type} (d : PyDict α)
    (h : (d.map Prod.fst).Nodup) (k : String) (v : α) (hm : (k, v) ∈ d) :
    dictGet? d k = some v := by
  induction d with
  | nil => cases hm
  | cons p rest ih =>
      obtain ⟨k₀, v₀⟩ := p
      simp only [List.map_cons, List.nodup_cons] at h
      rcases List.mem_cons.mp hm with he | ht
      · obtain ⟨rfl, rfl⟩ := Prod.mk.injEq .. ▸ he
        simp [dictGet?]
      · have hk : k₀ ≠ k := by
          intro e
          exact h.1 (e ▸ List.mem_map_of_mem Prod.fst ht)
        simp [dictGet?, hk]
        exact ih h.2 ht

theorem countP_pairs_eq_keys {α : Type} (dflt : α) (P : α → Bool) :
    ∀ (d : PyDict α), (d.map Prod.fst).Nodup →
      d.countP (fun p => P p.2) =
        (d.map Prod.fst).countP (fun k => P (dictGetD d k dflt)) := by
  intro d
  induction d with
  | nil => simp
  | cons p rest ih =>
      intro h
      obtain ⟨k₀, v₀⟩ := p
      simp only [List.map_cons, List.nodup_cons] at h
      have e0 : dictGetD ((k₀, v₀) :: rest) k₀ dflt = v₀ := by
        simp [dictGetD, dictGet?]
      have ecng : (rest.map Prod.fst).countP
            (fun k => P (dictGetD ((k₀, v₀) :: rest) k dflt)) =
          (rest.map Prod.fst).countP (fun k => P (dictGetD rest k dflt)) := by
        apply List.countP_congr
        intro k hk
        have hne : k₀ ≠ k := fun e => h.1 (e ▸ hk)
        simp [dictGetD, dictGet?, hne]
      simp only [List.countP_cons, List.map_cons, e0, ecng, ih h.2]

/-! ## Theorems about aggregator.py -/

theorem foldl_csStep_sum (wd : PyDict (PyDict SRecord)) :
    ∀ acc, (wd.foldl csStep acc).1 + (wd.foldl csStep acc).2.1 =
      acc.1 + acc.2.1 + wd.length := by
  induction wd with
  | nil => intro acc; simp
  | cons p ps ih =>
      intro acc
      simp only [List.foldl_cons, csStep]
      split <;> rw [ih] <;> simp <;> omega

theorem foldl_actStep_sum (wa : PyDict (List Bool)) :
    ∀ acc, (wa.foldl actStep acc).1 + (wa.foldl actStep acc).2 =
      acc.1 + acc.2 + wa.length := by
  induction wa with
  | nil => intro acc; simp
  | cons p ps ih =>
      intro acc
      simp only [List.foldl_cons, actStep]
      split <;> rw [ih] <;> simp <;> omega

theorem case_study_sum (records : List SRecord) :
    (compute_case_study_metrics records).websites_with_case_studies +
      (compute_case_study_metrics records).websites_without_case_studies =
      (compute_case_study_metrics records).total_websites := by
  have := foldl_csStep_sum (groupBySite records) (0, 0, [])
  simpa [compute_case_study_metrics, csLoop] using this

theorem activity_sum (records : List SRecord) :
    (compute_activity_metrics records).active_websites +
      (compute_activity_metrics records).inactive_websites =
      (compute_activity_metrics records).total_websites := by
  have := foldl_actStep_sum (groupActivity records) (0, 0)
  simpa [compute_activity_metrics, actLoop] using this

/-- C3: the case-study and activity sub-reports satisfy with + without =
total and active + inactive = total for every input record list, so the
aggregator's own cross-validation never emits either sum-mismatch error. -/
theorem c3_sum_identities_and_validation (records : List SRecord) :
    ((compute_case_study_metrics records).websites_with_case_studies +
        (compute_case_study_metrics records).websites_without_case_studies =
        (compute_case_study_metrics records).total_websites) ∧
    ((compute_activity_metrics records).active_websites +
        (compute_activity_metrics records).inactive_websites =
        (compute_activity_metrics records).total_websites) ∧
    "Case study totals don\x27t match" ∉
        validate_metrics_errors (aggregateMetrics records) ∧
    "Activity totals don\x27t match" ∉
        validate_metrics_errors (aggregateMetrics records) := by
  refine ⟨case_study_sum records, activity_sum records, ?_, ?_⟩ <;>
  · intro hmem
    simp only [validate_metrics_errors, aggregateMetrics, List.mem_append] at hmem
    rcases hmem with (h | h) | h
    · rw [if_neg (by simpa using case_study_sum records)] at h
      simp at h
    · rw [if_neg (by simpa using activity_sum records)] at h
      simp at h
    · simp only [List.mem_filterMap] at h
      obtain ⟨s, hs, he⟩ := h
      fin_cases hs <;> split at he <;> simp_all

/-! ## C8: AND semantics of the activity analysis -/

theorem foldl_actGroupStep_get (records : List SRecord) :
    ∀ (d : PyDict (List Bool)) (w : String),
      dictGetD (records.foldl actGroupStep d) w [] =
        dictGetD d w [] ++
          ((records.filter (fun r => r.website = w)).map (fun r => r.isActive)) := by
  induction records with
  | nil => intro d w; simp
  | cons r rs ih =>
      intro d w
      simp only [List.foldl_cons]
      rw [ih]
      by_cases h : w = r.website
      · have e : dictGetD (actGroupStep d r) w [] = dictGetD d w [] ++ [r.isActive] := by
          simp [actGroupStep, dictGetD, dictGet?_dictSet, h]
        rw [e]
        simp [List.filter_cons, h.symm]
      · have e : dictGetD (actGroupStep d r) w [] = dictGetD d w [] := by
          simp [actGroupStep, dictGetD, dictGet?_dictSet, h]
        rw [e]
        simp [List.filter_cons, Ne.symm h]

theorem foldl_actGroupStep_keys (records : List SRecord) :
    ∀ d, (records.foldl actGroupStep d).map Prod.fst =
      (records.map (fun r => r.website)).foldl dedupStep (d.map Prod.fst) := by
  induction records with
  | nil => intro d; simp
  | cons r rs ih =>
      intro d
      simp only [List.foldl_cons, List.map_cons]
      rw [ih]
      congr 1
      rw [actGroupStep, keys_dictSet, dedupStep]
      by_cases h : dictHas d r.website
      · rw [if_pos h, if_pos]
        simpa using (dictHas_iff d r.website).mp h
      · rw [if_neg h, if_neg]
        intro hc
        exact h ((dictHas_iff d r.website).mpr (List.elem_iff.mp hc))

theorem nodup_foldl_actGroupStep (records : List SRecord) :
    ∀ d, (d.map Prod.fst).Nodup →
      ((records.foldl actGroupStep d).map Prod.fst).Nodup := by
  induction records with
  | nil => intro d h; exact h
  | cons r rs ih =>
      intro d h
      simp only [List.foldl_cons]
      exact ih _ (nodup_keys_dictSet _ _ _ h)

theorem foldl_actStep_fst (wa : PyDict (List Bool)) :
    ∀ acc, (wa.foldl actStep acc).1 = acc.1 + wa.countP (fun p => p.2.all id) := by
  induction wa with
  | nil => intro acc; simp
  | cons p ps ih =>
      intro acc
      simp only [List.foldl_cons, actStep, List.countP_cons]
      split <;> (rename_i h; rw [ih]; simp [h]; try omega)

theorem all_map_general {α β : Type} (l : List α) (f : α → β) (p : β → Bool) :
    (l.map f).all p = l.all (fun a => p (f a)) := by
  induction l <;> simp_all

theorem active_count_characterization (records : List SRecord) :
    (compute_activity_metrics records).active_websites =
      (dedupFirst (records.map (fun r => r.website))).countP
        (fun w => (records.filter (fun r => r.website = w)).all
          (fun r => r.isActive)) := by
  have hkeys : (groupActivity records).map Prod.fst =
      dedupFirst (records.map (fun r => r.website)) := by
    simpa [groupActivity, dedupFirst] using foldl_actGroupStep_keys records []
  have hnodup : ((groupActivity records).map Prod.fst).Nodup :=
    nodup_foldl_actGroupStep records [] (by simp)
  have hget : ∀ w, dictGetD (groupActivity records) w [] =
      (records.filter (fun r => r.website = w)).map (fun r => r.isActive) := by
    intro w
    simpa [groupActivity, dictGetD, dictGet?] using foldl_actGroupStep_get records [] w
  have e1 : (compute_activity_metrics records).active_websites =
      (groupActivity records).countP (fun p => p.2.all id) := by
    have := foldl_actStep_fst (groupActivity records) (0, 0)
    simpa [compute_activity_metrics, actLoop] using this
  rw [e1, countP_pairs_eq_keys [] (fun l => l.all id) _ hnodup, hkeys]
  apply List.countP_congr
  intro w hw
  simp only [hget w, all_map_general, id]

/-- C8: a website is classified active iff every one of its records has
`isActive = true` (logical AND across the group); a website whose two
records carry `isActive` true and false is classified inactive. -/
theorem c8_activity_is_logical_and (records : List SRecord) :
    ((compute_activity_metrics records).active_websites =
      (dedupFirst (records.map (fun r => r.website))).countP
        (fun w => (records.filter (fun r => r.website = w)).all
          (fun r => r.isActive))) ∧
    ((compute_activity_metrics
        [⟨"https://a.com", "navbar", "", "", true⟩,
         ⟨"https://a.com", "homepage", "", "", false⟩]).active_websites = 0 ∧
      (compute_activity_metrics
        [⟨"https://a.com", "navbar", "", "", true⟩,
         ⟨"https://a.com", "homepage", "", "", false⟩]).inactive_websites = 1 ∧
      (compute_activity_metrics
        [⟨"https://a.com", "navbar", "", "", true⟩,
         ⟨"https://a.com", "homepage", "", "", false⟩]).total_websites = 1) := by
  refine ⟨active_count_characterization records, ?_, ?_, ?_⟩ <;> rfl

/-- Witness for C9 at concrete inputs. -/
theorem c9_witness :
    "navbar" ∈ sectionsList ∧
    (validate_record (create_standardized_record "https://www.x.com" "navbar"
        " Home About " "2024-01-01T00:00:00") = true ∧
      (transformDomains [("x.com", [("navbar", "Home")])] []).2 = 0 ∧
      (transformDomains [("x.com", [("navbar", "Home")])] []).1.length =
        4 * ([("x.com", [("navbar", "Home")])] : PyDict (PyDict String)).length) :=
  ⟨by decide,
   c9_created_records_always_validate "https://www.x.com" "navbar" " Home About "
     "2024-01-01T00:00:00" (by decide) [("x.com", [("navbar", "Home")])] []⟩

/-! ## Theorems about clean_text (extractor.py) -/

theorem headP_dropWhile (p : Char → Bool) (l : List Char) :
    headP p (l.dropWhile p) = false := by
  induction l with
  | nil => rfl
  | cons c cs ih =>
      by_cases h : p c
      · simpa [List.dropWhile_cons, h] using ih
      · simp [List.dropWhile_cons, h, headP]

theorem dropWhile_of_headP (p : Char → Bool) (l : List Char)
    (h : headP p l = false) : l.dropWhile p = l := by
  cases l with
  | nil => rfl
  | cons c cs =>
      simp only [headP] at h
      simp [List.dropWhile_cons, h]

theorem dropTrailing_of_lastP (p : Char → Bool) (l : List Char)
    (h : lastP p l = false) : dropTrailing p l = l := by
  unfold lastP at h
  unfold dropTrailing
  rw [dropWhile_of_headP p _ h, List.reverse_reverse]

theorem pyStripList_eq_eta (l : List Char) :
    pyStripList l = dropTrailing pyIsSpace (l.dropWhile pyIsSpace) := rfl

theorem dropTrailing_front (p : Char → Bool) (l : List Char) :
    dropTrailing p l <+: l := by
  obtain ⟨t, ht⟩ := List.dropWhile_suffix (l := l.reverse) p
  refine ⟨t.reverse, ?_⟩
  unfold dropTrailing
  rw [← List.reverse_append, ht, List.reverse_reverse]

theorem headP_of_front {p : Char → Bool} {l₁ l₂ : List Char} (h : l₁ <+: l₂)
    (h2 : headP p l₂ = false) : headP p l₁ = false := by
  cases l₁ with
  | nil => rfl
  | cons c cs =>
      obtain ⟨t, rfl⟩ := h
      simpa [headP] using h2

theorem headP_pyStripList (l : List Char) :
    headP pyIsSpace (pyStripList l) = false := by
  rw [pyStripList_eq_eta]
  exact headP_of_front (dropTrailing_front ..) (headP_dropWhile ..)

theorem lastP_pyStripList (l : List Char) :
    lastP pyIsSpace (pyStripList l) = false := by
  unfold lastP pyStripList
  rw [List.reverse_reverse]
  exact headP_dropWhile ..

theorem mem_collapseRuns {p : Char → Bool} {rep : Char} :
    ∀ (l : List Char) (c : Char), c ∈ collapseRuns p rep l →
      (c ∈ l ∧ p c = false) ∨ c = rep := by
  intro l
  induction l using collapseRuns.induct p rep with
  | case1 => intro c hc; simp [collapseRuns] at hc
  | case2 c0 cs h ih =>
      intro c hc
      simp only [collapseRuns, if_pos h] at hc
      rcases List.mem_cons.mp hc with rfl | hm
      · right; rfl
      · rcases ih c hm with ⟨hmem, hpc⟩ | rfl
        · exact Or.inl ⟨List.mem_cons_of_mem _ ((List.dropWhile_sublist p).subset hmem), hpc⟩
        · right; rfl
  | case3 c0 cs h ih =>
      intro c hc
      simp only [collapseRuns, if_neg h] at hc
      rcases List.mem_cons.mp hc with rfl | hm
      · exact Or.inl ⟨List.mem_cons_self .., by simpa using h⟩
      · rcases ih c hm with ⟨hmem, hpc⟩ | rfl
        · exact Or.inl ⟨List.mem_cons_of_mem _ hmem, hpc⟩
        · right; rfl

theorem headP_collapseRuns (p : Char → Bool) (rep : Char) (hrep : p rep = true)
    (l : List Char) : headP p (collapseRuns p rep l) = headP p l := by
  cases l with
  | nil => simp [collapseRuns]
  | cons c cs =>
      by_cases h : p c
      · simp [collapseRuns, h, headP, hrep]
      · simp [collapseRuns, h, headP]

theorem noAdj_cons (p : Char → Bool) (c : Char) (l : List Char) :
    noAdj p (c :: l) = ((!(p c && headP p l)) && noAdj p l) := by
  cases l <;> simp [noAdj, headP]

theorem noAdj_collapseRuns {p : Char → Bool} {rep : Char} (hrep : p rep = true)
    (l : List Char) : noAdj p (collapseRuns p rep l) = true := by
  induction l using collapseRuns.induct p rep with
  | case1 => simp [collapseRuns, noAdj]
  | case2 c cs h ih =>
      simp only [collapseRuns, if_pos h]
      rw [noAdj_cons]
      have h1 : headP p (collapseRuns p rep (cs.dropWhile p)) = false := by
        rw [headP_collapseRuns p rep hrep]
        exact headP_dropWhile p cs
      simp [h1, ih]
  | case3 c cs h ih =>
      simp only [collapseRuns, if_neg h]
      rw [noAdj_cons]
      simp only [Bool.not_eq_true] at h
      simp [h, ih]

theorem collapseRuns_id_of_not (p : Char → Bool) (rep : Char) {l : List Char}
    (h : ∀ c ∈ l, p c = false) : collapseRuns p rep l = l := by
  induction l with
  | nil => simp [collapseRuns]
  | cons c cs ih =>
      have hc : p c = false := h c (by simp)
      simp [collapseRuns, hc, ih (fun x hx => h x (by simp [hx]))]

theorem collapseRuns_id_of_normalized {p : Char → Bool} {rep : Char}
    (_hrep : p rep = true) (l : List Char) :
    noAdj p l = true → (∀ c ∈ l, p c = true → c = rep) → collapseRuns p rep l = l := by
  induction l using collapseRuns.induct p rep with
  | case1 => intro _ _; simp [collapseRuns]
  | case2 c cs h ih =>
      intro hAdj hAll
      rw [noAdj_cons] at hAdj
      obtain ⟨h1, h2⟩ := Bool.and_eq_true_iff.mp hAdj
      have hh : headP p cs = false := by
        cases hh : headP p cs
        · rfl
        · rw [h, hh] at h1
          simp at h1
      have hdw : cs.dropWhile p = cs := dropWhile_of_headP p cs hh
      rw [hdw] at ih
      have hcrep : c = rep := hAll c (by simp) h
      simp only [collapseRuns, if_pos h]
      rw [hdw, ih h2 (fun x hx hpx => hAll x (by simp [hx]) hpx), hcrep]
  | case3 c cs h ih =>
      intro hAdj hAll
      rw [noAdj_cons] at hAdj
      obtain ⟨h1, h2⟩ := Bool.and_eq_true_iff.mp hAdj
      simp only [collapseRuns, if_neg h]
      rw [ih h2 (fun x hx hpx => hAll x (by simp [hx]) hpx)]

theorem noAdj_mono {p q : Char → Bool} (himp : ∀ c, q c = true → p c = true) :
    ∀ l, noAdj p l = true → noAdj q l = true := by
  intro l
  induction l with
  | nil => intro _; rfl
  | cons c cs ih =>
      intro h
      rw [noAdj_cons] at h ⊢
      obtain ⟨h1, h2⟩ := Bool.and_eq_true_iff.mp h
      refine Bool.and_eq_true_iff.mpr ⟨?_, ih h2⟩
      cases hq1 : q c
      · simp
      · cases cs with
        | nil => simp [headP]
        | cons c2 rest =>
            simp only [headP] at h1 ⊢
            cases hq2 : q c2
            · simp
            · rw [himp _ hq1, himp _ hq2] at h1
              simp at h1

theorem noAdj_append_right {p : Char → Bool} (a b : List Char)
    (h : noAdj p (a ++ b) = true) : noAdj p b = true := by
  induction a with
  | nil => simpa using h
  | cons c a' ih =>
      rw [List.cons_append, noAdj_cons] at h
      exact ih (Bool.and_eq_true_iff.mp h).2

theorem noAdj_append_left {p : Char → Bool} (a b : List Char)
    (h : noAdj p (a ++ b) = true) : noAdj p a = true := by
  induction a with
  | nil => rfl
  | cons c a' ih =>
      rw [List.cons_append, noAdj_cons] at h
      obtain ⟨h1, h2⟩ := Bool.and_eq_true_iff.mp h
      rw [noAdj_cons]
      refine Bool.and_eq_true_iff.mpr ⟨?_, ih h2⟩
      cases a' with
      | nil => simp [headP]
      | cons c2 rest => simpa [headP, List.cons_append] using h1

theorem noAdj_pyStripList (p : Char → Bool) (l : List Char)
    (h : noAdj p l = true) : noAdj p (pyStripList l) = true := by
  rw [pyStripList_eq_eta]
  obtain ⟨t, ht⟩ := dropTrailing_front pyIsSpace (l.dropWhile pyIsSpace)
  obtain ⟨u, hu⟩ := List.dropWhile_suffix (l := l) pyIsSpace
  have hsuffix : noAdj p (l.dropWhile pyIsSpace) = true :=
    noAdj_append_right u _ (by rw [hu]; exact h)
  exact noAdj_append_left _ t (by rw [ht]; exact hsuffix)

theorem pyStripList_subset (l : List Char) :
    ∀ c ∈ pyStripList l, c ∈ l := by
  intro c hc
  rw [pyStripList_eq_eta] at hc
  exact (List.dropWhile_sublist _).subset
    ((dropTrailing_front pyIsSpace _).sublist.subset hc)

theorem crt_implies_ws (c : Char) (h : isCRT c = true) : pyIsSpace c = true := by
  simp only [isCRT, Bool.or_eq_true, beq_iff_eq] at h
  rcases h with (rfl | rfl) | rfl <;> decide

theorem sp_implies_ws (c : Char) (h : isSp c = true) : pyIsSpace c = true := by
  simp only [isSp, beq_iff_eq] at h
  subst h
  decide

theorem cleanList_eq (l : List Char) :
    cleanList l = pyStripList (collapseRuns pyIsSpace ' ' (pyStripList l)) := by
  unfold cleanList
  have honly : ∀ c ∈ collapseRuns pyIsSpace ' ' (pyStripList l),
      pyIsSpace c = true → c = ' ' := by
    intro c hc hws
    rcases mem_collapseRuns _ _ hc with ⟨_, hpc⟩ | rfl
    · exact absurd hws (by simp [hpc])
    · rfl
  have hAdj : noAdj pyIsSpace (collapseRuns pyIsSpace ' ' (pyStripList l)) = true :=
    noAdj_collapseRuns (by decide) _
  have h2 : collapseRuns isCRT ' ' (collapseRuns pyIsSpace ' ' (pyStripList l)) =
      collapseRuns pyIsSpace ' ' (pyStripList l) := by
    apply collapseRuns_id_of_not
    intro c hc
    cases hcrt : isCRT c
    · rfl
    · have hsp := honly c hc (crt_implies_ws c hcrt)
      rw [hsp] at hcrt
      exact absurd hcrt (by decide)
  have h3 : collapseRuns isSp ' ' (collapseRuns pyIsSpace ' ' (pyStripList l)) =
      collapseRuns pyIsSpace ' ' (pyStripList l) := by
    apply collapseRuns_id_of_normalized (by decide)
    · exact noAdj_mono sp_implies_ws _ hAdj
    · intro c _ hc
      simpa [isSp] using hc
  rw [h2, h3]

theorem cleanList_props (l : List Char) :
    (∀ c ∈ cleanList l, pyIsSpace c = true → c = ' ') ∧
    noAdj pyIsSpace (cleanList l) = true ∧
    headP pyIsSpace (cleanList l) = false ∧
    lastP pyIsSpace (cleanList l) = false := by
  rw [cleanList_eq]
  refine ⟨?_, ?_, headP_pyStripList _, lastP_pyStripList _⟩
  · intro c hc hws
    have hcm := pyStripList_subset _ c hc
    rcases mem_collapseRuns _ _ hcm with ⟨_, hpc⟩ | rfl
    · exact absurd hws (by simp [hpc])
    · rfl
  · exact noAdj_pyStripList _ _ (noAdj_collapseRuns (by decide) _)

theorem pyStripList_id_of (l : List Char) (h1 : headP pyIsSpace l = false)
    (h2 : lastP pyIsSpace l = false) : pyStripList l = l := by
  rw [pyStripList_eq_eta, dropWhile_of_headP _ _ h1, dropTrailing_of_lastP _ _ h2]

theorem cleanList_idem (l : List Char) : cleanList (cleanList l) = cleanList l := by
  obtain ⟨honly, hAdj, hHead, hLast⟩ := cleanList_props l
  generalize ho : cleanList l = o at *
  unfold cleanList
  rw [pyStripList_id_of o hHead hLast]
  rw [collapseRuns_id_of_normalized (by decide) o hAdj (fun c hc hp => honly c hc hp)]
  rw [collapseRuns_id_of_not isCRT ' ' (fun c hc => by
    cases hcrt : isCRT c
    · rfl
    · have hsp := honly c hc (crt_implies_ws c hcrt)
      rw [hsp] at hcrt
      exact absurd hcrt (by decide))]
  rw [collapseRuns_id_of_normalized (by decide) o (noAdj_mono sp_implies_ws o hAdj)
    (fun c _ hc => by simpa [isSp] using hc)]
  exact pyStripList_id_of o hHead hLast

theorem toList_clean_text (s : String) :
    (clean_text s).toList = cleanList s.toList := rfl

/-- C10: `clean_text` is idempotent, and its output never contains a
carriage return, newline or tab, never contains two consecutive spaces, and
has no leading or trailing whitespace (`strip` of the output is the output
itself). -/
theorem c10_clean_text_idempotent_normalized (s : String) :
    clean_text (clean_text s) = clean_text s ∧
    (∀ c ∈ (clean_text s).toList, c ≠ '\r' ∧ c ≠ '\n' ∧ c ≠ '\t') ∧
    ¬ ([' ', ' '] <:+: (clean_text s).toList) ∧
    pyStrip (clean_text s) = clean_text s := by
  obtain ⟨honly, hAdj, hHead, hLast⟩ := cleanList_props s.toList
  refine ⟨?_, ?_, ?_, ?_⟩
  · show (cleanList (clean_text s).toList).asString = clean_text s
    rw [toList_clean_text, cleanList_idem]
    rfl
  · intro c hc
    rw [toList_clean_text] at hc
    refine ⟨?_, ?_, ?_⟩ <;> rintro rfl
    · exact absurd (honly _ hc (by decide)) (by decide)
    · exact absurd (honly _ hc (by decide)) (by decide)
    · exact absurd (honly _ hc (by decide)) (by decide)
  · intro hinf
    obtain ⟨u, v, huv⟩ := hinf
    rw [toList_clean_text] at huv
    have h1 : noAdj pyIsSpace ([' ', ' '] ++ v) = true := by
      refine noAdj_append_right u _ ?_
      rw [← List.append_assoc, huv]
      exact hAdj
    have h2 : noAdj pyIsSpace [' ', ' '] = true := noAdj_append_left _ v h1
    exact absurd h2 (by decide)
  · show (pyStripList (clean_text s).toList).asString = clean_text s
    rw [toList_clean_text, pyStripList_id_of _ hHead hLast]
    rfl

/-! ## Theorems about crawler.py -/

/-- C2: a site whose existing progress record has status completed is
skipped entirely: the crawl performs zero requests and returns the metadata
map unchanged. -/
theorem c2_completed_site_skipped (oracle : String → FetchOutcome)
    (now_iso : String) (now_ts : Nat) (metadata : PyDict CrawlData)
    (base_url : String) (cd : CrawlData)
    (h1 : dictGet? metadata base_url = some cd) (h2 : cd.status = "completed") :
    crawl_website oracle now_iso now_ts metadata base_url = (metadata, []) := by
  have hg : isCompleted metadata base_url = true := by
    simp [isCompleted, h1, h2]
  simp [crawl_website, hg]

/-- Witness for C2 at concrete inputs. -/
theorem c2_witness :
    (dictGet? [("https://a.com",
        ({ url := "https://a.com", domain := "a.com", crawl_time := "t", timestamp := 0,
           status := "completed", pages := [], components := [], error := none,
           pages_crawled := some 0, components_extracted := some 0 } : CrawlData))]
        "https://a.com" =
      some { url := "https://a.com", domain := "a.com", crawl_time := "t", timestamp := 0,
             status := "completed", pages := [], components := [], error := none,
             pages_crawled := some 0, components_extracted := some 0 }) ∧
    crawl_website (fun _ => FetchOutcome.netError) "now" 1
        [("https://a.com",
          { url := "https://a.com", domain := "a.com", crawl_time := "t", timestamp := 0,
            status := "completed", pages := [], components := [], error := none,
            pages_crawled := some 0, components_extracted := some 0 })] "https://a.com" =
      ([("https://a.com",
         { url := "https://a.com", domain := "a.com", crawl_time := "t", timestamp := 0,
           status := "completed", pages := [], components := [], error := none,
           pages_crawled := some 0, components_extracted := some 0 })], []) :=
  ⟨rfl, c2_completed_site_skipped _ _ _ _ _ _ rfl rfl⟩

/-- Counterexample for C7 as stated: when the homepage fetch fails, the
stored record has status failed with empty pages and components and only the
homepage request was made — but its `error` field is `none`: no error note
is stored in the progress record (the error is only logged), refuting the
"together with an error note" part of the claim. -/
theorem c7_counterexample :
    ((dictGet? (crawl_website (fun _ => FetchOutcome.netError) "2024-01-01T00:00:00" 0 []
        "https://www.example.com").1 "https://www.example.com").map
        (fun cd => (cd.status, cd.error, cd.pages, cd.components)) =
      some ("failed", none, [], [])) ∧
    (crawl_website (fun _ => FetchOutcome.netError) "2024-01-01T00:00:00" 0 []
        "https://www.example.com").2 = ["https://www.example.com"] :=
  ⟨rfl, rfl⟩

/-- C7 (amended): when the idempotency gate does not fire and the homepage
fetch fails (network error or 4xx/5xx status), the site's record is stored
with status failed, empty pages and components maps and no `error` field
(the error is logged, not stored), and processing stops: the homepage
request is the only request made. -/
theorem c7_amended_failed_homepage (oracle : String → FetchOutcome)
    (now_iso : String) (now_ts : Nat) (metadata : PyDict CrawlData)
    (base_url : String)
    (h1 : isCompleted metadata base_url = false)
    (h2 : fetch_url oracle base_url = none) :
    crawl_website oracle now_iso now_ts metadata base_url =
      (dictSet metadata base_url
        { url := base_url, domain := get_domain_name base_url, crawl_time := now_iso,
          timestamp := now_ts, status := "failed", pages := [], components := [],
          error := none, pages_crawled := none, components_extracted := none },
       [base_url]) := by
  simp [crawl_website, h1, h2]

/-- Witness for the amended C7 at concrete inputs. -/
theorem c7_amended_witness :
    (isCompleted [] "https://www.example.com" = false ∧
      fetch_url (fun _ => FetchOutcome.netError) "https://www.example.com" = none) ∧
    crawl_website (fun _ => FetchOutcome.netError) "2024-01-01T00:00:00" 0 []
        "https://www.example.com" =
      (dictSet [] "https://www.example.com"
        { url := "https://www.example.com",
          domain := get_domain_name "https://www.example.com",
          crawl_time := "2024-01-01T00:00:00", timestamp := 0, status := "failed",
          pages := [], components := [], error := none, pages_crawled := none,
          components_extracted := none },
       ["https://www.example.com"]) :=
  ⟨⟨rfl, rfl⟩, c7_amended_failed_homepage _ _ _ _ _ rfl rfl⟩

/-- Counterexample for C5 as stated: on the three-link homepage, internal
link extraction with cap 2 does not return `/about` and `/contact` — the
case-study link `/customer-stories/acme` qualifies as an internal link too
(the code never excludes it), so the extraction stops at the cap with
`/about` and `/customer-stories/acme`. -/
theorem c5_counterexample :
    extract_internal_links "https://example.com" c5Doc 2 ≠
      ["https://example.com/about", "https://example.com/contact"] ∧
    extract_internal_links "https://example.com" c5Doc 2 =
      ["https://example.com/about", "https://example.com/customer-stories/acme"] ∧
    find_case_study_url "https://example.com" c5Doc =
      some "https://example.com/customer-stories/acme" := by
  refine ⟨?_, rfl, rfl⟩
  intro h
  have h2 : (["https://example.com/about",
      "https://example.com/customer-stories/acme"] : List String) =
      ["https://example.com/about", "https://example.com/contact"] := h
  simp at h2

/-- C5 (amended): on the three-link homepage, case-study discovery returns
`/customer-stories/acme` and internal-link extraction with cap 2 returns
`/about` and `/customer-stories/acme` in document order — the first two
qualifying links; the two selections operate independently on the same link
set and the case-study URL is never excluded from the internal links. -/
theorem c5_amended_independent_selection :
    find_case_study_url "https://example.com" c5Doc =
      some "https://example.com/customer-stories/acme" ∧
    extract_internal_links "https://example.com" c5Doc 2 =
      ["https://example.com/about", "https://example.com/customer-stories/acme"] ∧
    extract_internal_links "https://example.com"
        [.elem "body" []
          [.elem "a" [("href", "/about")] [.text "About"],
           .elem "a" [("href", "/contact")] [.text "Contact"]]] 2 =
      ["https://example.com/about", "https://example.com/contact"] :=
  ⟨rfl, rfl, rfl⟩

theorem findCSAux_eq_findSome (base_url base_domain : String) :
    ∀ links, findCSAux base_url base_domain links =
      links.findSome? (csQualify base_url base_domain) := by
  intro links
  induction links with
  | nil => rfl
  | cons lk rest ih =>
      obtain ⟨href, txt⟩ := lk
      rw [List.findSome?_cons]
      simp only [findCSAux, csQualify]
      by_cases hkw : (caseStudyKeywords.any fun kw =>
          pyInStr kw (pyLower href) || pyInStr kw (pyStrip (pyLower txt))) = true
      · simp only [hkw, if_true]
        by_cases hc : (pyUrlparse (pyUrljoin base_url href)).netloc = base_domain ∧
            ((pyUrlparse (pyUrljoin base_url href)).scheme = "http" ∨
              (pyUrlparse (pyUrljoin base_url href)).scheme = "https") ∧
            pyUrljoin base_url href ≠ base_url
        · simp [hc]
        · simp [hc, ih]
      · simp only [Bool.not_eq_true] at hkw
        simp [hkw, ih]

theorem internalFetchLoop_trace (oracle : String → FetchOutcome) (domain : String) :
    ∀ (links : List String) (cd : CrawlData) (i : Nat),
      (internalFetchLoop oracle domain cd i links).2 = links := by
  intro links
  induction links with
  | nil => intro cd i; rfl
  | cons u rest ih =>
      intro cd i
      simp only [internalFetchLoop]
      cases hf : fetch_url oracle u with
      | none => simp [ih]
      | some v =>
          obtain ⟨st, tx, dm⟩ := v
          simp [ih]

theorem internal_key_ne (s : String) : ("internal_" ++ s) ≠ "case_study" := by
  intro h
  have h2 := congrArg String.toList h
  cases s with
  | mk data => simp [String.toList] at h2

theorem internalFetchLoop_pages_cs (oracle : String → FetchOutcome) (domain : String) :
    ∀ (links : List String) (cd : CrawlData) (i : Nat),
      dictGet? (internalFetchLoop oracle domain cd i links).1.pages "case_study" =
        dictGet? cd.pages "case_study" := by
  intro links
  induction links with
  | nil => intro cd i; rfl
  | cons u rest ih =>
      intro cd i
      simp only [internalFetchLoop]
      cases hf : fetch_url oracle u with
      | none => simp [ih]
      | some v =>
          obtain ⟨st, tx, dm⟩ := v
          simp only []
          rw [ih]
          simp only [dictGet?_dictSet]
          rw [if_neg (Ne.symm (internal_key_ne (toString i)))]

/-- C6: case-study discovery returns exactly the first qualifying link of
the homepage document (keyword in lowercased href or text, same registered
domain, http(s) scheme, different from the homepage URL); and when no link
qualifies, the crawl makes no case-study request (its requests are the
homepage followed by the internal links only) and the stored record's page
map has no case_study entry. -/
theorem c6_case_study_discovery (base_url : String) (doc2 : List HNode)
    (oracle : String → FetchOutcome) (now_iso : String) (now_ts : Nat)
    (metadata : PyDict CrawlData) (dom : List HNode) (st : Nat) (tx : String)
    (h1 : isCompleted metadata base_url = false)
    (h2 : fetch_url oracle base_url = some (st, tx, dom))
    (h3 : find_case_study_url base_url dom = none) :
    (find_case_study_url base_url doc2 =
      (linksOfList doc2).findSome? (csQualify base_url (pyUrlparse base_url).netloc)) ∧
    ((dictGet? (crawl_website oracle now_iso now_ts metadata base_url).1 base_url).map
        (fun cd => dictGet? cd.pages "case_study") = some none) ∧
    (crawl_website oracle now_iso now_ts metadata base_url).2 =
      base_url :: extract_internal_links base_url dom 2 := by
  refine ⟨findCSAux_eq_findSome _ _ _, ?_, ?_⟩
  · simp only [crawl_website, h1, if_false, Bool.false_eq_true, h2, h3]
    rw [dictGet?_dictSet, if_pos rfl]
    simp only [Option.map_some']
    rw [internalFetchLoop_pages_cs]
    cases hn : extract_navbar_html dom <;> cases hff : extract_footer_html dom <;>
      simp [dictGet?_dictSet, dictGet?]
  · simp only [crawl_website, h1, if_false, Bool.false_eq_true, h2, h3]
    rw [internalFetchLoop_trace]
    simp

/-- Witness for C6 at concrete inputs: a homepage whose only link has no
case-study keyword. -/
theorem c6_witness :
    (isCompleted [] "https://site.org" = false ∧
      fetch_url (fun _ => FetchOutcome.response 200 "page"
          [.elem "a" [("href", "/about")] [.text "About"]]) "https://site.org" =
        some (200, "page", [.elem "a" [("href", "/about")] [.text "About"]]) ∧
      find_case_study_url "https://site.org"
          [.elem "a" [("href", "/about")] [.text "About"]] = none) ∧
    ((find_case_study_url "https://site.org" c5Doc =
        (linksOfList c5Doc).findSome?
          (csQualify "https://site.org" (pyUrlparse "https://site.org").netloc)) ∧
      ((dictGet? (crawl_website (fun _ => FetchOutcome.response 200 "page"
            [.elem "a" [("href", "/about")] [.text "About"]]) "t" 0 []
            "https://site.org").1 "https://site.org").map
          (fun cd => dictGet? cd.pages "case_study") = some none) ∧
      (crawl_website (fun _ => FetchOutcome.response 200 "page"
          [.elem "a" [("href", "/about")] [.text "About"]]) "t" 0 []
          "https://site.org").2 =
        "https://site.org" :: extract_internal_links "https://site.org"
          [.elem "a" [("href", "/about")] [.text "About"]] 2) :=
  ⟨⟨rfl, rfl, rfl⟩,
   c6_case_study_discovery "https://site.org" c5Doc
     (fun _ => FetchOutcome.response 200 "page"
       [.elem "a" [("href", "/about")] [.text "About"]]) "t" 0 []
     [.elem "a" [("href", "/about")] [.text "About"]] 200 "page" rfl rfl rfl⟩

/-! ## Theorems about the selector chains (C4) -/

mutual
theorem selectOneNode_tag_isSome (t : String) (ancs : List HNode) (n : HNode) :
    (selectOneNode (.tag t) ancs n).isSome = anyNode (isTagElem t) n := by
  cases n with
  | elem t2 attrs cs =>
      simp only [selectOneNode, anyNode, selMatches, isTagElem]
      by_cases h : t2 == t
      · simp [h]
      · simp [h, selectOneList_tag_isSome t (.elem t2 attrs cs :: ancs) cs]
  | text s => rfl
  | comment s => rfl

theorem selectOneList_tag_isSome (t : String) (ancs : List HNode) (l : List HNode) :
    (selectOneList (.tag t) ancs l).isSome = anyList (isTagElem t) l := by
  cases l with
  | nil => rfl
  | cons n rest =>
      simp only [selectOneList, anyList]
      cases hn : selectOneNode (.tag t) ancs n with
      | none =>
          have he := selectOneNode_tag_isSome t ancs n
          rw [hn] at he
          simp [← he, selectOneList_tag_isSome t ancs rest]
      | some r =>
          have he := selectOneNode_tag_isSome t ancs n
          rw [hn] at he
          simp [← he]
end

/-- C4: the navbar chain evaluates its selectors in the fixed order with
`nav` first, so for every document containing a `<nav>` element (and in
particular also one with a `navbar`-classed element, which a later selector
would match), both the extractor's and the crawler's navbar functions return
the first `<nav>` element in document order — its cleaned text and the
element itself respectively. -/
theorem c4_navbar_chain_priority (doc : List HNode)
    (hnav : anyList (isTagElem "nav") doc = true)
    (_hnavbar : anyList hasNavbarClassElem doc = true) :
    ∃ n, soup_select_one doc (.tag "nav") = some n ∧
      extract_navbar_text doc = extract_text_from_soup [n] ∧
      extract_navbar_html doc = some n := by
  have h1 : (soup_select_one doc (.tag "nav")).isSome = true := by
    rw [soup_select_one, selectOneList_tag_isSome]
    exact hnav
  obtain ⟨n, hn⟩ := Option.isSome_iff_exists.mp h1
  refine ⟨n, hn, ?_, ?_⟩
  · simp only [extract_navbar_text, navbar_selectors, selectFirstMatch, hn]
  · simp only [extract_navbar_html, navbar_selectors, selectFirstMatch, hn]

/-- Witness for C4: a document whose `.navbar`-classed element precedes the
`<nav>` element in document order; the chain still picks the `<nav>`. -/
theorem c4_witness :
    (anyList (isTagElem "nav")
        [.elem "div" [("class", "navbar")] [.text "NB"],
         .elem "nav" [] [.text "Home About"]] = true ∧
      anyList hasNavbarClassElem
        [.elem "div" [("class", "navbar")] [.text "NB"],
         .elem "nav" [] [.text "Home About"]] = true) ∧
    (∃ n, soup_select_one
        [.elem "div" [("class", "navbar")] [.text "NB"],
         .elem "nav" [] [.text "Home About"]] (.tag "nav") = some n ∧
      extract_navbar_text
        [.elem "div" [("class", "navbar")] [.text "NB"],
         .elem "nav" [] [.text "Home About"]] = extract_text_from_soup [n] ∧
      extract_navbar_html
        [.elem "div" [("class", "navbar")] [.text "NB"],
         .elem "nav" [] [.text "Home About"]] = some n) :=
  ⟨⟨rfl, rfl⟩,
   c4_navbar_chain_priority
     [.elem "div" [("class", "navbar")] [.text "NB"],
      .elem "nav" [] [.text "Home About"]] rfl rfl⟩

end Pipeline
